import Mathlib

/-!
Verification of the `localnet` package of `grokify/oscompat`.

The package provides cross-platform local IPC: on Unix it uses Unix domain
sockets at `<runtime dir>/<name>.sock`; on Windows it listens on an ephemeral
loopback TCP port and publishes that port in a text file
`<local app data>/oscompat/localnet/<name>.port`.

The development shallowly embeds the Go code over an explicit world state
(environment variables, an association-list file system, and the set of live
listeners).  Machine-level Go standard-library primitives (`os.Remove`,
`os.ReadFile`, `strconv.Itoa`, `strings.TrimSpace`, `net.Listen`, `net.Dial`,
`filepath.Join`) are modelled as executable Lean functions at the level of
detail the package observes.
-/

set_option autoImplicit false

namespace Oscompat

/-! ## Decimal rendering and parsing

Models of `strconv.Itoa` (used by the Windows `listen` to write the port
file) and of the port-string parsing performed by Go's `net.Dial` when it
resolves the address `"127.0.0.1:" + port`. -/

/-- Character for a single decimal digit `d < 10`. -/
def digitChar (d : Nat) : Char := Char.ofNat (48 + d)

/-- Little-endian decimal digits of `n`, with explicit fuel (`fuel ≥ n`
suffices); returns `[]` for `n = 0`. -/
def natDigitsRev (fuel n : Nat) : List Nat :=
  match fuel with
  | 0 => []
  | f + 1 => if n = 0 then [] else n % 10 :: natDigitsRev f (n / 10)

/-- Value of a little-endian decimal digit list. -/
def ofDigitsLE : List Nat → Nat
  | [] => 0
  | d :: t => d + 10 * ofDigitsLE t

/-- Model of Go `strconv.Itoa` for non-negative values: the usual decimal
rendering. -/
def itoa (n : Nat) : String :=
  if n = 0 then "0" else ⟨(natDigitsRev n n).reverse.map digitChar⟩

/-- Whitespace predicate of Go `strings.TrimSpace` (ASCII part; the package
only ever trims around decimal digits). -/
def isGoSpace (c : Char) : Bool :=
  c == ' ' || c == '\t' || c == '\n' || c == '\r' ||
    c == Char.ofNat 11 || c == Char.ofNat 12

/-- Model of Go `strings.TrimSpace`. -/
def goTrimSpace (s : String) : String :=
  ⟨((s.data.dropWhile isGoSpace).reverse.dropWhile isGoSpace).reverse⟩

/-- Model of the port parsing Go's `net.Dial` applies to the service part of
`"127.0.0.1:" + port`: a non-empty all-digit string whose value is at most
65535. -/
def goParsePort (s : String) : Option Nat :=
  if s.data = [] then none
  else if s.data.all (fun c => c.isDigit) then
    let n := s.data.foldl (fun a c => a * 10 + (c.toNat - 48)) 0
    if n ≤ 65535 then some n else none
  else none

/-- Model of Go `filepath.Join` on two components (the package always joins a
clean directory with a relative file name, where `Join` reduces to inserting
one separator; the separator is written `/` uniformly). -/
def goJoin (dir file : String) : String := dir ++ "/" ++ file

/-- Model of Go `filepath.Dir`: everything before the last separator. -/
def goDir (p : String) : String :=
  match (p.data.reverse).dropWhile (fun c => c ≠ '/') with
  | [] => "."
  | _ :: t => ⟨t.reverse⟩

/-- Auxiliary substring test on character lists. -/
def containsAux (sub : List Char) : List Char → Bool
  | [] => sub.isEmpty
  | c :: t => sub.isPrefixOf (c :: t) || containsAux sub t

/-- Substring containment test on strings (used only to state theorems). -/
def strContains (hay sub : String) : Bool := containsAux sub.data hay.data

/-! ## Errors

Go errors observed by the package, as a small inductive type.  `wrap m e`
models `fmt.Errorf(m + ": %w", e)`. -/

/-- Errors produced by the modelled Go code. -/
inductive GoErr
  /-- `ErrInvalidName`: the package-level sentinel for an empty name. -/
  | errInvalidName
  /-- `ErrSocketExists`: declared by the package (never returned). -/
  | errSocketExists
  /-- The error a `net.Listener`'s `Close` returns when already closed. -/
  | errNetClosed
  /-- An `os` error for which `os.IsNotExist` reports `true`. -/
  | notExist (path : String)
  /-- A permission-style `os` error for operation `op` on `path`. -/
  | permission (op path : String)
  /-- Bind failure of `net.Listen("unix", path)` when `path` is occupied. -/
  | addrInUse (path : String)
  /-- Failure of `net.Listen("tcp", "127.0.0.1:0")`. -/
  | listenFail
  /-- Connection refused when dialing a socket path with no live acceptor. -/
  | connRefused (path : String)
  /-- Connection refused when dialing a loopback TCP port with no listener. -/
  | connRefusedTcp (port : Nat)
  /-- Address resolution failure of `net.Dial` on a malformed port string. -/
  | unknownPort (s : String)
  /-- `fmt.Errorf` wrapping with a package-scoped message. -/
  | wrap (msg : String) (inner : GoErr)
deriving DecidableEq

/-- Model of Go `os.IsNotExist` on a non-nil error. -/
def GoErr.isNotExist : GoErr → Bool
  | .notExist _ => true
  | _ => false

/-- Whether an error is `ErrSocketExists` or wraps it. -/
def GoErr.usesSocketExists : GoErr → Bool
  | .errSocketExists => true
  | .wrap _ e => e.usesSocketExists
  | _ => false

/-- Whether an optional error is or wraps `ErrSocketExists`. -/
def optUsesSocketExists : Option GoErr → Bool
  | none => false
  | some e => e.usesSocketExists

/-- Error component of an `Except` result. -/
def exceptErr {α : Type} : Except GoErr α → Option GoErr
  | .error e => some e
  | .ok _ => none

/-! ## File-system, environment and network model -/

/-- An entry in the modelled file system. -/
inductive FsEntry
  /-- A regular file with the given text content. -/
  | file (content : String)
  /-- A Unix-domain-socket special file. -/
  | socketFile
  /-- A directory. -/
  | dir
deriving DecidableEq

/-- The modelled file system: an association list from paths to entries plus
lists of paths on which individual `os` operations fail with a
permission-style error. -/
structure FS where
  entries : List (String × FsEntry)
  unremovable : List String
  unreadable : List String
  unwritable : List String
  mkdirDenied : List String
  chmodDenied : List String
deriving DecidableEq

/-- Entry at a path. -/
def FS.lookup (fs : FS) (p : String) : Option FsEntry := fs.entries.lookup p

/-- Remove an entry. -/
def FS.erase (fs : FS) (p : String) : FS :=
  { fs with entries := fs.entries.filter (fun kv => kv.1 != p) }

/-- Create or overwrite an entry. -/
def FS.insert (fs : FS) (p : String) (e : FsEntry) : FS :=
  { fs with entries := (p, e) :: (fs.erase p).entries }

/-- A file system with no induced permission failures. -/
def FS.Unrestricted (fs : FS) : Prop :=
  fs.unremovable = [] ∧ fs.unreadable = [] ∧ fs.unwritable = [] ∧
    fs.mkdirDenied = [] ∧ fs.chmodDenied = []

instance (fs : FS) : Decidable fs.Unrestricted := by
  unfold FS.Unrestricted; infer_instance

/-- The permission-failure configuration of a file system (everything except
the entries). -/
def FS.flags (fs : FS) : List String × List String × List String × List String × List String :=
  (fs.unremovable, fs.unreadable, fs.unwritable, fs.mkdirDenied, fs.chmodDenied)

/-- Environment variables consulted by the package (Go `os.Getenv` returns
`""` when a variable is unset, so each is a plain string). -/
structure Env where
  xdgRuntimeDir : String
  localAppData : String
  userHome : String
deriving DecidableEq

/-- Live transport listeners. `nextPort` is the ephemeral port the OS will
hand to the next loopback TCP bind. -/
structure Net where
  nextPort : Nat
  tcpListening : List Nat
  unixListening : List String
deriving DecidableEq

/-- The world the package operates on. -/
structure World where
  env : Env
  fs : FS
  net : Net
deriving DecidableEq

/-- A connection as returned by `net.Dial`, identified by its remote
endpoint. -/
inductive Conn
  /-- Connection over a Unix domain socket. -/
  | unix (path : String)
  /-- Loopback TCP connection to the given port. -/
  | tcp (port : Nat)
deriving DecidableEq

/-- Model of Go `os.Remove`. -/
def osRemove (fs : FS) (p : String) : FS × Option GoErr :=
  match fs.lookup p with
  | none => (fs, some (.notExist p))
  | some _ =>
      if p ∈ fs.unremovable then (fs, some (.permission "remove" p))
      else (fs.erase p, none)

/-- Model of Go `os.ReadFile`. -/
def osReadFile (fs : FS) (p : String) : Except GoErr String :=
  match fs.lookup p with
  | none => .error (.notExist p)
  | some (.file c) =>
      if p ∈ fs.unreadable then .error (.permission "read" p) else .ok c
  | some _ => .error (.permission "read" p)

/-- Model of Go `os.WriteFile`. -/
def osWriteFile (fs : FS) (p content : String) : FS × Option GoErr :=
  if p ∈ fs.unwritable then (fs, some (.permission "write" p))
  else (fs.insert p (.file content), none)

/-- Model of Go `os.MkdirAll`. -/
def osMkdirAll (fs : FS) (dir : String) : FS × Option GoErr :=
  if dir ∈ fs.mkdirDenied then (fs, some (.permission "mkdir" dir))
  else (fs.insert dir .dir, none)

/-- Model of Go `os.Chmod` (the mode bits themselves are not modelled). -/
def osChmod (fs : FS) (p : String) : FS × Option GoErr :=
  match fs.lookup p with
  | none => (fs, some (.notExist p))
  | some _ =>
      if p ∈ fs.chmodDenied then (fs, some (.permission "chmod" p)) else (fs, none)

/-- Model of Go `net.Listen("unix", path)`: fails if anything occupies
`path`, otherwise creates the socket file and registers a live listener. -/
def netListenUnix (w : World) (path : String) : World × Option GoErr :=
  match w.fs.lookup path with
  | some _ => (w, some (.addrInUse path))
  | none =>
      ({ w with
          fs := w.fs.insert path .socketFile,
          net := { w.net with unixListening := path :: w.net.unixListening } }, none)

/-- Model of closing the `net.Listener` of a Unix-socket listener. -/
def netCloseUnix (path : String) (w : World) : World × Option GoErr :=
  if path ∈ w.net.unixListening then
    ({ w with net := { w.net with unixListening := w.net.unixListening.erase path } }, none)
  else (w, some .errNetClosed)

/-- Model of Go `net.Listen("tcp", "127.0.0.1:0")`: the OS assigns
`nextPort` when it is a valid free port. -/
def netListenTcpEphemeral (w : World) : World × Except GoErr Nat :=
  let p := w.net.nextPort
  if 1 ≤ p ∧ p ≤ 65535 ∧ p ∉ w.net.tcpListening then
    ({ w with net := { w.net with tcpListening := p :: w.net.tcpListening } }, .ok p)
  else (w, .error .listenFail)

/-- Model of closing the `net.Listener` of a loopback TCP listener. -/
def netCloseTcp (port : Nat) (w : World) : World × Option GoErr :=
  if port ∈ w.net.tcpListening then
    ({ w with net := { w.net with tcpListening := w.net.tcpListening.erase port } }, none)
  else (w, some .errNetClosed)

/-- Model of Go `net.Dial("unix", path)`. -/
def netDialUnix (w : World) (path : String) : Except GoErr Conn :=
  match w.fs.lookup path with
  | none => .error (.notExist path)
  | some _ =>
      if path ∈ w.net.unixListening then .ok (.unix path)
      else .error (.connRefused path)

/-- Model of Go `net.Dial("tcp", "127.0.0.1:" + portStr)`: the port string is
parsed, then the connection succeeds exactly when a listener holds the
port. -/
def netDialTcpLoopback (w : World) (portStr : String) : Except GoErr Conn :=
  match goParsePort portStr with
  | none => .error (.unknownPort portStr)
  | some p =>
      if p ∈ w.net.tcpListening then .ok (.tcp p)
      else .error (.connRefusedTcp p)

/-! ## The `localnet` package

Embeddings of `localnet.go`, `localnet_unix.go` and `localnet_windows.go`.
Go's early-`return` style is rendered as nested matches; helper definitions
(`Unix.listenBind`, `Win.listenPublish`) hold the code that follows an early
return in the same Go function. -/

namespace Localnet

open Oscompat

/-- The `Listener` struct: an embedded `net.Listener` (represented by its
`Close` behaviour over the world), the name, and the `func() error` cleanup
closure (`none` models a nil closure). -/
structure Listener where
  transportClose : World → World × Option GoErr
  name : String
  cleanup : Option (World → World × Option GoErr)

/-- Method `Listener.Close`: close the transport listener, then, when the
cleanup closure is non-nil, invoke it; the cleanup error is reported only
when the transport close returned nil. -/
def Listener.Close (l : Listener) (w : World) : World × Option GoErr :=
  let tc := l.transportClose w
  match l.cleanup with
  | none => tc
  | some f =>
      let cl := f tc.1
      (cl.1, match tc.2 with
             | none => cl.2
             | some e => some e)

/-- Method `Listener.Name`. -/
def Listener.Name (l : Listener) : String := l.name

/-- The artifact-removal closure built by both platform `listen` functions
and shared verbatim with both platform `cleanup` functions:
`os.Remove(path)`, with a `nil` result when `os.IsNotExist` holds. -/
def removeArtifact (path : String) (w : World) : World × Option GoErr :=
  let r := osRemove w.fs path
  let w1 : World := { w with fs := r.1 }
  match r.2 with
  | some e => if e.isNotExist then (w1, none) else (w1, some e)
  | none => (w1, none)

namespace Unix

/-- `socketDir` of `localnet_unix.go`: `XDG_RUNTIME_DIR` when set, else
`/tmp`. -/
def socketDir (env : Env) : String :=
  if env.xdgRuntimeDir ≠ "" then env.xdgRuntimeDir else "/tmp"

/-- `socketPath` of `localnet_unix.go`. -/
def socketPath (env : Env) (name : String) : String :=
  goJoin (socketDir env) (name ++ ".sock")

/-- Continuation of `listen` after the stale-socket removal: bind the Unix
socket, set its permissions, and build the `Listener` value. -/
def listenBind (name path : String) (w : World) : Except GoErr Listener × World :=
  let b := netListenUnix w path
  match b.2 with
  | some e => (.error (.wrap "oscompat/localnet: failed to listen" e), b.1)
  | none =>
      let c := osChmod b.1.fs path
      let w2 : World := { b.1 with fs := c.1 }
      match c.2 with
      | some e =>
          let w3 := (netCloseUnix path w2).1
          let w4 : World := { w3 with fs := (osRemove w3.fs path).1 }
          (.error (.wrap "oscompat/localnet: failed to set socket permissions" e), w4)
      | none =>
          (.ok ⟨netCloseUnix path, name, some (removeArtifact path)⟩, w2)

/-- `listen` of `localnet_unix.go`: remove a pre-existing entry at the
socket path (a not-exist failure is ignored) and bind. -/
def listen (name : String) (w : World) : Except GoErr Listener × World :=
  let path := socketPath w.env name
  match osRemove w.fs path with
  | (fs1, some e) =>
      if e.isNotExist then listenBind name path { w with fs := fs1 }
      else (.error (.wrap "oscompat/localnet: failed to remove existing socket" e),
            { w with fs := fs1 })
  | (fs1, none) => listenBind name path { w with fs := fs1 }

/-- `dial` of `localnet_unix.go`. -/
def dial (name : String) (w : World) : Except GoErr Conn × World :=
  let path := socketPath w.env name
  match netDialUnix w path with
  | .error e => (.error (.wrap "oscompat/localnet: failed to connect" e), w)
  | .ok c => (.ok c, w)

/-- `cleanup` of `localnet_unix.go`: textually the same removal pattern as
the listener's cleanup closure, applied to the socket path. -/
def cleanup (name : String) (w : World) : World × Option GoErr :=
  removeArtifact (socketPath w.env name) w

end Unix

namespace Win

/-- `portFileDir` of `localnet_windows.go`: `LOCALAPPDATA` when set, else
`<home>/AppData/Local`, each extended by `oscompat/localnet`. -/
def portFileDir (env : Env) : String :=
  if env.localAppData ≠ "" then goJoin (goJoin env.localAppData "oscompat") "localnet"
  else goJoin (goJoin (goJoin (goJoin env.userHome "AppData") "Local") "oscompat") "localnet"

/-- `portFilePath` of `localnet_windows.go`. -/
def portFilePath (env : Env) (name : String) : String :=
  goJoin (portFileDir env) (name ++ ".port")

/-- `socketPath` of `localnet_windows.go`: on Windows the address
description is the port-file path. -/
def socketPath (env : Env) (name : String) : String := portFilePath env name

/-- Continuation of `listen` after directory creation and stale-port-file
removal: bind an ephemeral loopback TCP port, write it to the port file, and
build the `Listener` value. -/
def listenPublish (name portFile : String) (w : World) : Except GoErr Listener × World :=
  let b := netListenTcpEphemeral w
  match b.2 with
  | .error e => (.error (.wrap "oscompat/localnet: failed to listen" e), b.1)
  | .ok port =>
      let wr := osWriteFile b.1.fs portFile (itoa port)
      let w3 : World := { b.1 with fs := wr.1 }
      match wr.2 with
      | some e =>
          let w4 := (netCloseTcp port w3).1
          (.error (.wrap "oscompat/localnet: failed to write port file" e), w4)
      | none =>
          (.ok ⟨netCloseTcp port, name, some (removeArtifact portFile)⟩, w3)

/-- `listen` of `localnet_windows.go`: ensure the port-file directory
exists, remove a stale port file (result ignored), then bind and publish. -/
def listen (name : String) (w : World) : Except GoErr Listener × World :=
  let portFile := portFilePath w.env name
  let m := osMkdirAll w.fs (goDir portFile)
  let w1 : World := { w with fs := m.1 }
  match m.2 with
  | some e => (.error (.wrap "oscompat/localnet: failed to create port file directory" e), w1)
  | none =>
      let w2 : World := { w1 with fs := (osRemove w1.fs portFile).1 }
      listenPublish name portFile w2

/-- `dial` of `localnet_windows.go`: read the port file, trim whitespace,
and dial `"127.0.0.1:" + port`. -/
def dial (name : String) (w : World) : Except GoErr Conn × World :=
  let portFile := portFilePath w.env name
  match osReadFile w.fs portFile with
  | .error e => (.error (.wrap "oscompat/localnet: failed to read port file" e), w)
  | .ok data =>
      let port := goTrimSpace data
      match netDialTcpLoopback w port with
      | .error e => (.error (.wrap "oscompat/localnet: failed to connect" e), w)
      | .ok c => (.ok c, w)

/-- `cleanup` of `localnet_windows.go`: the removal pattern applied to the
port-file path. -/
def cleanup (name : String) (w : World) : World × Option GoErr :=
  removeArtifact (portFilePath w.env name) w

end Win

/-- The per-platform implementation set selected by Go build tags: the
lower-case `listen`, `dial`, `socketPath` and `cleanup` functions. -/
structure PlatformOps where
  listen : String → World → Except GoErr Listener × World
  dial : String → World → Except GoErr Conn × World
  socketPath : Env → String → String
  cleanup : String → World → World × Option GoErr

/-- The Unix build of the package. -/
def unixPlatform : PlatformOps :=
  ⟨Unix.listen, Unix.dial, Unix.socketPath, Unix.cleanup⟩

/-- The Windows build of the package. -/
def windowsPlatform : PlatformOps :=
  ⟨Win.listen, Win.dial, Win.socketPath, Win.cleanup⟩

/-- Exported `Listen` of `localnet.go`. -/
def Listen (p : PlatformOps) (name : String) (w : World) : Except GoErr Listener × World :=
  if name = "" then (.error .errInvalidName, w) else p.listen name w

/-- Exported `Dial` of `localnet.go`. -/
def Dial (p : PlatformOps) (name : String) (w : World) : Except GoErr Conn × World :=
  if name = "" then (.error .errInvalidName, w) else p.dial name w

/-- Exported `SocketPath` of `localnet.go`. -/
def SocketPath (p : PlatformOps) (env : Env) (name : String) : String :=
  if name = "" then "" else p.socketPath env name

/-- Exported `Cleanup` of `localnet.go`. -/
def Cleanup (p : PlatformOps) (name : String) (w : World) : World × Option GoErr :=
  if name = "" then (w, some .errInvalidName) else p.cleanup name w

end Localnet

/-! ## Helper lemmas: decimal round trip -/

/-- For decimal digits, `digitChar` produces a digit character that is not
whitespace and decodes back to the digit. -/
theorem digitChar_spec :
    ∀ d, d < 10 → (digitChar d).isDigit = true ∧ (digitChar d).toNat - 48 = d ∧
      isGoSpace (digitChar d) = false := by decide

/-- Every produced decimal digit is below 10. -/
theorem natDigitsRev_lt (fuel : Nat) :
    ∀ n d, d ∈ natDigitsRev fuel n → d < 10 := by
  induction fuel with
  | zero => intro n d hd; simp [natDigitsRev] at hd
  | succ f ih =>
      intro n d hd
      unfold natDigitsRev at hd
      split at hd
      · simp at hd
      · rcases List.mem_cons.mp hd with h | h
        · subst h; exact Nat.mod_lt _ (by norm_num)
        · exact ih _ _ h

/-- With enough fuel, the digit list evaluates back to the number. -/
theorem ofDigitsLE_natDigitsRev (fuel : Nat) :
    ∀ n, n ≤ fuel → ofDigitsLE (natDigitsRev fuel n) = n := by
  induction fuel with
  | zero => intro n h; interval_cases n; rfl
  | succ f ih =>
      intro n h
      unfold natDigitsRev
      by_cases h0 : n = 0
      · simp [h0, ofDigitsLE]
      · rw [if_neg h0]
        have hdiv : n / 10 ≤ f := by omega
        simp only [ofDigitsLE, ih (n / 10) hdiv]
        omega

/-- The accumulator fold of `goParsePort`, applied to a rendered big-endian
digit list, recovers the value. -/
theorem foldl_digits (l : List Nat) (hl : ∀ d ∈ l, d < 10) (a : Nat) :
    ((l.reverse.map digitChar).foldl (fun acc c => acc * 10 + (c.toNat - 48)) a)
      = a * 10 ^ l.length + ofDigitsLE l := by
  induction l generalizing a with
  | nil => simp [ofDigitsLE]
  | cons d t ih =>
      have hd : d < 10 := hl d (List.mem_cons_self d t)
      have ht : ∀ x ∈ t, x < 10 := fun x hx => hl x (List.mem_cons_of_mem _ hx)
      rw [List.reverse_cons, List.map_append, List.foldl_append, ih ht a]
      simp only [List.map_cons, List.map_nil, List.foldl_cons, List.foldl_nil,
        (digitChar_spec d hd).2.1, ofDigitsLE, List.length_cons, pow_succ]
      ring

/-- Every character of `itoa n` is a decimal digit. -/
theorem itoa_digit_chars (n : Nat) :
    ∀ c ∈ (itoa n).data, c.isDigit = true ∧ isGoSpace c = false := by
  intro c hc
  unfold itoa at hc
  by_cases h0 : n = 0
  · rw [if_pos h0] at hc
    simp only [show ("0" : String).data = ['0'] from rfl, List.mem_singleton] at hc
    subst hc; exact ⟨by decide, by decide⟩
  · rw [if_neg h0] at hc
    simp only [String.data] at hc
    rcases List.mem_map.mp (by simpa using hc) with ⟨d, hd, rfl⟩
    have hd10 : d < 10 := natDigitsRev_lt n n d hd
    exact ⟨(digitChar_spec d hd10).1, (digitChar_spec d hd10).2.2⟩

/-- Lists of non-whitespace characters are fixed by `dropWhile isGoSpace`. -/
theorem dropWhile_nospace (l : List Char) (h : ∀ c ∈ l, isGoSpace c = false) :
    l.dropWhile isGoSpace = l := by
  cases l with
  | nil => rfl
  | cons c t =>
      rw [List.dropWhile_cons, h c (List.mem_cons_self c t)]
      simp

/-- Strings of non-whitespace characters are fixed by `goTrimSpace`. -/
theorem goTrimSpace_nospace (s : String) (h : ∀ c ∈ s.data, isGoSpace c = false) :
    goTrimSpace s = s := by
  unfold goTrimSpace
  rw [dropWhile_nospace s.data h,
      dropWhile_nospace s.data.reverse (fun c hc => h c (List.mem_reverse.mp hc)),
      List.reverse_reverse]

/-- Trimming the rendered port is a no-op. -/
theorem goTrimSpace_itoa (n : Nat) : goTrimSpace (itoa n) = itoa n :=
  goTrimSpace_nospace _ (fun c hc => (itoa_digit_chars n c hc).2)

/-- Parsing inverts rendering on the valid port range: the decimal text
written by the Windows `listen` resolves back to the same port. -/
theorem goParsePort_itoa (p : Nat) (h1 : 1 ≤ p) (h2 : p ≤ 65535) :
    goParsePort (itoa p) = some p := by
  have h0 : p ≠ 0 := by omega
  have hdata : (itoa p).data = (natDigitsRev p p).reverse.map digitChar := by
    unfold itoa; rw [if_neg h0]
  have hne : (itoa p).data ≠ [] := by
    rw [hdata]
    obtain ⟨f, hf⟩ : ∃ f, p = f + 1 := ⟨p - 1, by omega⟩
    rw [hf]; unfold natDigitsRev
    rw [if_neg (by omega : f + 1 ≠ 0)]
    simp
  have hall : (itoa p).data.all (fun c => c.isDigit) = true := by
    rw [List.all_eq_true]
    exact fun c hc => (itoa_digit_chars p c hc).1
  unfold goParsePort
  rw [if_neg hne, if_pos hall, hdata,
      foldl_digits _ (natDigitsRev_lt p p) 0,
      ofDigitsLE_natDigitsRev p p (le_refl p)]
  simp [h2]

/-! ## Helper lemmas: association-list file system -/

/-- Looking up a key removed by `filter` yields nothing. -/
theorem lookup_filter_ne (p : String) (l : List (String × FsEntry)) :
    (l.filter (fun kv => kv.1 != p)).lookup p = none := by
  induction l with
  | nil => rfl
  | cons kv t ih =>
      rw [List.filter_cons]
      by_cases h : kv.1 = p
      · simp [h, ih]
      · have : (kv.1 != p) = true := by simp [bne, h]
        rw [if_pos this]
        simp [List.lookup, show (p == kv.1) = false by simp [Ne.symm h], ih]

/-- A fresh insert is found. -/
theorem FS.lookup_insert (fs : FS) (p : String) (e : FsEntry) :
    (fs.insert p e).lookup p = some e := by
  simp [FS.insert, FS.lookup, List.lookup]

/-- An erased path is gone. -/
theorem FS.lookup_erase (fs : FS) (p : String) :
    (fs.erase p).lookup p = none :=
  lookup_filter_ne p fs.entries

/-- Erasing keeps the permission-failure configuration. -/
theorem FS.flags_erase (fs : FS) (p : String) : (fs.erase p).flags = fs.flags := rfl

/-- Inserting keeps the permission-failure configuration. -/
theorem FS.flags_insert (fs : FS) (p : String) (e : FsEntry) :
    (fs.insert p e).flags = fs.flags := rfl

/-- The fields of `FS` other than `entries` are untouched by `erase`,
`insert` and `osRemove`. -/
theorem FS.flags_osRemove (fs : FS) (p : String) : (osRemove fs p).1.flags = fs.flags := by
  unfold osRemove
  cases fs.lookup p
  · rfl
  · dsimp only
    split <;> rfl

/-- Unrestrictedness transfers along equal flag tuples. -/
theorem FS.unrestricted_of_flags (fs1 fs2 : FS) (h : fs1.flags = fs2.flags)
    (hf : fs2.Unrestricted) : fs1.Unrestricted := by
  obtain ⟨h1, h2, h3, h4, h5⟩ := hf
  unfold FS.flags at h
  simp only [Prod.mk.injEq] at h
  exact ⟨h.1.trans h1, h.2.1.trans h2, h.2.2.1.trans h3, h.2.2.2.1.trans h4,
    h.2.2.2.2.trans h5⟩

/-- The `unwritable` list survives `osRemove`. -/
theorem FS.unwritable_osRemove (fs : FS) (p : String) :
    (osRemove fs p).1.unwritable = fs.unwritable := by
  unfold osRemove
  cases fs.lookup p
  · rfl
  · dsimp only
    split <;> rfl

/-- Inserting over a previous erase of the same key is the plain insert. -/
theorem FS.insert_erase (fs : FS) (p : String) (e : FsEntry) :
    (fs.erase p).insert p e = fs.insert p e := by
  unfold FS.insert FS.erase
  simp [List.filter_filter]

/-! ## Helper lemmas: the removal closure -/

/-- Removing an absent artifact is normalized to success and changes
nothing. -/
theorem removeArtifact_absent (w : World) (p : String) (h : w.fs.lookup p = none) :
    Localnet.removeArtifact p w = (w, none) := by
  unfold Localnet.removeArtifact osRemove
  rw [h]
  rfl

/-- Removing a present, removable artifact succeeds and erases it. -/
theorem removeArtifact_present (w : World) (p : String) (e : FsEntry)
    (h : w.fs.lookup p = some e) (hrm : p ∉ w.fs.unremovable) :
    Localnet.removeArtifact p w = ({ w with fs := w.fs.erase p }, none) := by
  unfold Localnet.removeArtifact osRemove
  rw [h]
  simp [hrm]

/-- A non-not-found removal failure is propagated and changes nothing. -/
theorem removeArtifact_denied (w : World) (p : String) (e : FsEntry)
    (h : w.fs.lookup p = some e) (hrm : p ∈ w.fs.unremovable) :
    Localnet.removeArtifact p w = (w, some (.permission "remove" p)) := by
  unfold Localnet.removeArtifact osRemove
  rw [h]
  simp [hrm, GoErr.isNotExist]

/-! ## Helper lemmas: the Unix and Windows listeners -/

@[simp] theorem FS.chmodDenied_insert (fs : FS) (p : String) (e : FsEntry) :
    (fs.insert p e).chmodDenied = fs.chmodDenied := rfl

theorem listenBind_of_free (name path : String) (w : World)
    (hlk : w.fs.lookup path = none) (hc : path ∉ w.fs.chmodDenied) :
    Localnet.Unix.listenBind name path w =
      (.ok ⟨netCloseUnix path, name, some (Localnet.removeArtifact path)⟩,
       { w with fs := w.fs.insert path .socketFile,
                net := { w.net with unixListening := path :: w.net.unixListening } }) := by
  unfold Localnet.Unix.listenBind netListenUnix osChmod
  rw [hlk]
  dsimp only
  rw [FS.lookup_insert]
  dsimp only
  rw [FS.chmodDenied_insert, if_neg hc]

theorem unix_listen_unrestricted (name : String) (w : World)
    (hfree : w.fs.Unrestricted) :
    Localnet.Unix.listen name w =
      (.ok ⟨netCloseUnix (Localnet.Unix.socketPath w.env name), name,
            some (Localnet.removeArtifact (Localnet.Unix.socketPath w.env name))⟩,
       { w with
          fs := w.fs.insert (Localnet.Unix.socketPath w.env name) .socketFile,
          net := { w.net with
                    unixListening :=
                      Localnet.Unix.socketPath w.env name :: w.net.unixListening } }) := by
  obtain ⟨hrm, -, -, -, hcm⟩ := hfree
  have hcm' : Localnet.Unix.socketPath w.env name ∉ w.fs.chmodDenied := by
    rw [hcm]; exact List.not_mem_nil _
  unfold Localnet.Unix.listen osRemove
  dsimp only
  cases hlk : w.fs.lookup (Localnet.Unix.socketPath w.env name) with
  | none =>
      dsimp only [GoErr.isNotExist]
      rw [if_pos rfl]
      exact listenBind_of_free name _ w hlk hcm'
  | some e =>
      rw [if_neg (by rw [hrm]; exact List.not_mem_nil _)]
      dsimp only
      have h2 := listenBind_of_free name (Localnet.Unix.socketPath w.env name)
        { w with fs := w.fs.erase (Localnet.Unix.socketPath w.env name) }
        (FS.lookup_erase w.fs _) hcm'
      rw [FS.insert_erase] at h2
      exact h2

theorem Unix.listenBind_ok (name path : String) (w : World) (l : Localnet.Listener)
    (h : (Localnet.Unix.listenBind name path w).1 = .ok l) :
    l = ⟨netCloseUnix path, name, some (Localnet.removeArtifact path)⟩ ∧
    (Localnet.Unix.listenBind name path w).2.fs.lookup path = some .socketFile ∧
    (Localnet.Unix.listenBind name path w).2.env = w.env ∧
    (Localnet.Unix.listenBind name path w).2.fs.flags = w.fs.flags ∧
    (Localnet.Unix.listenBind name path w).2.net.unixListening = path :: w.net.unixListening := by
  unfold Localnet.Unix.listenBind netListenUnix osChmod at h ⊢
  dsimp only at h ⊢
  cases hlk : w.fs.lookup path with
  | some e =>
      rw [hlk] at h
      dsimp only at h
      exact absurd h (by simp)
  | none =>
      rw [hlk] at h
      dsimp only at h ⊢
      rw [FS.lookup_insert] at h ⊢
      dsimp only at h ⊢
      rw [FS.chmodDenied_insert] at h ⊢
      by_cases hch : path ∈ w.fs.chmodDenied
      · rw [if_pos hch] at h
        exact absurd h (by simp)
      · rw [if_neg hch] at h ⊢
        dsimp only at h ⊢
        refine ⟨(Except.ok.inj h).symm, FS.lookup_insert _ _ _, rfl, rfl, rfl⟩

theorem unix_listen_ok (name : String) (w : World) (l : Localnet.Listener)
    (h : (Localnet.Unix.listen name w).1 = .ok l) :
    l = ⟨netCloseUnix (Localnet.Unix.socketPath w.env name), name,
         some (Localnet.removeArtifact (Localnet.Unix.socketPath w.env name))⟩ ∧
    (Localnet.Unix.listen name w).2.fs.lookup (Localnet.Unix.socketPath w.env name)
      = some .socketFile ∧
    (Localnet.Unix.listen name w).2.env = w.env ∧
    (Localnet.Unix.listen name w).2.fs.flags = w.fs.flags := by
  unfold Localnet.Unix.listen at h ⊢
  dsimp only at h ⊢
  cases hlk : w.fs.lookup (Localnet.Unix.socketPath w.env name) with
  | none =>
      unfold osRemove at h ⊢
      rw [hlk] at h ⊢
      dsimp only [GoErr.isNotExist] at h ⊢
      rw [if_pos rfl] at h ⊢
      have hb := Unix.listenBind_ok name (Localnet.Unix.socketPath w.env name) w l h
      exact ⟨hb.1, hb.2.1, hb.2.2.1, hb.2.2.2.1⟩
  | some e =>
      unfold osRemove at h ⊢
      rw [hlk] at h ⊢
      dsimp only at h ⊢
      by_cases hrm : Localnet.Unix.socketPath w.env name ∈ w.fs.unremovable
      · rw [if_pos hrm] at h
        dsimp only [GoErr.isNotExist] at h
        rw [if_neg (by simp)] at h
        exact absurd h (by simp)
      · rw [if_neg hrm] at h ⊢
        dsimp only [GoErr.isNotExist] at h ⊢
        have hb := Unix.listenBind_ok name (Localnet.Unix.socketPath w.env name)
          { w with fs := w.fs.erase (Localnet.Unix.socketPath w.env name) } l h
        exact ⟨hb.1, hb.2.1, hb.2.2.1, hb.2.2.2.1⟩

theorem Win.listenPublish_of_ok (name pf : String) (w : World)
    (h1 : 1 ≤ w.net.nextPort) (h2 : w.net.nextPort ≤ 65535)
    (h3 : w.net.nextPort ∉ w.net.tcpListening) (hw : pf ∉ w.fs.unwritable) :
    Localnet.Win.listenPublish name pf w =
      (.ok ⟨netCloseTcp w.net.nextPort, name, some (Localnet.removeArtifact pf)⟩,
       { w with fs := w.fs.insert pf (.file (itoa w.net.nextPort)),
                net := { w.net with tcpListening := w.net.nextPort :: w.net.tcpListening } }) := by
  unfold Localnet.Win.listenPublish netListenTcpEphemeral osWriteFile
  dsimp only
  rw [if_pos ⟨h1, h2, h3⟩]
  dsimp only
  rw [if_neg hw]

theorem Win.listenPublish_ok (name pf : String) (w : World) (l : Localnet.Listener)
    (h : (Localnet.Win.listenPublish name pf w).1 = .ok l) :
    l = ⟨netCloseTcp w.net.nextPort, name, some (Localnet.removeArtifact pf)⟩ ∧
    (Localnet.Win.listenPublish name pf w).2.fs.lookup pf
      = some (.file (itoa w.net.nextPort)) ∧
    (Localnet.Win.listenPublish name pf w).2.env = w.env ∧
    (Localnet.Win.listenPublish name pf w).2.fs.flags = w.fs.flags ∧
    w.net.nextPort ∈ (Localnet.Win.listenPublish name pf w).2.net.tcpListening ∧
    1 ≤ w.net.nextPort ∧ w.net.nextPort ≤ 65535 := by
  unfold Localnet.Win.listenPublish netListenTcpEphemeral osWriteFile at h ⊢
  dsimp only at h ⊢
  by_cases hv : 1 ≤ w.net.nextPort ∧ w.net.nextPort ≤ 65535 ∧
      w.net.nextPort ∉ w.net.tcpListening
  · rw [if_pos hv] at h ⊢
    dsimp only at h ⊢
    by_cases hw : pf ∈ w.fs.unwritable
    · rw [if_pos hw] at h
      exact absurd h (by simp)
    · rw [if_neg hw] at h ⊢
      dsimp only at h ⊢
      refine ⟨(Except.ok.inj h).symm, FS.lookup_insert _ _ _, rfl, rfl,
        List.mem_cons_self _ _, hv.1, hv.2.1⟩
  · rw [if_neg hv] at h
    exact absurd h (by simp)

theorem win_listen_ok (name : String) (w : World) (l : Localnet.Listener)
    (h : (Localnet.Win.listen name w).1 = .ok l) :
    l = ⟨netCloseTcp w.net.nextPort, name,
         some (Localnet.removeArtifact (Localnet.Win.portFilePath w.env name))⟩ ∧
    (Localnet.Win.listen name w).2.fs.lookup (Localnet.Win.portFilePath w.env name)
      = some (.file (itoa w.net.nextPort)) ∧
    (Localnet.Win.listen name w).2.env = w.env ∧
    (Localnet.Win.listen name w).2.fs.flags = w.fs.flags ∧
    w.net.nextPort ∈ (Localnet.Win.listen name w).2.net.tcpListening ∧
    1 ≤ w.net.nextPort ∧ w.net.nextPort ≤ 65535 := by
  unfold Localnet.Win.listen osMkdirAll at h ⊢
  dsimp only at h ⊢
  by_cases hmk : goDir (Localnet.Win.portFilePath w.env name) ∈ w.fs.mkdirDenied
  · rw [if_pos hmk] at h
    exact absurd h (by simp)
  · rw [if_neg hmk] at h ⊢
    dsimp only at h ⊢
    have hp := Win.listenPublish_ok name (Localnet.Win.portFilePath w.env name) _ l h
    refine ⟨hp.1, hp.2.1, hp.2.2.1, ?_, hp.2.2.2.2.1, hp.2.2.2.2.2⟩
    exact hp.2.2.2.1.trans ((FS.flags_osRemove _ _).trans rfl)

/-! ## Helper lemmas: substring containment -/

/-- A list is detected at the front. -/
theorem containsAux_self_append (sub post : List Char) :
    containsAux sub (sub ++ post) = true := by
  cases sub with
  | nil =>
      cases post with
      | nil => rfl
      | cons c t => simp [containsAux]
  | cons c t =>
      show containsAux (c :: t) (c :: (t ++ post)) = true
      have hpre : (c :: t).isPrefixOf ((c :: t) ++ post) = true := by
        rw [List.isPrefixOf_iff_prefix]
        exact List.prefix_append _ _
      simp only [containsAux]
      rw [show c :: (t ++ post) = (c :: t) ++ post from rfl, hpre]
      simp

/-- Containment is stable under prepending. -/
theorem containsAux_append_left (sub : List Char) (pre : List Char) (l : List Char)
    (h : containsAux sub l = true) : containsAux sub (pre ++ l) = true := by
  induction pre with
  | nil => exact h
  | cons c t ih =>
      show containsAux sub (c :: (t ++ l)) = true
      cases sub with
      | nil => simp [containsAux]
      | cons d u => simp only [containsAux, ih, Bool.or_true]

/-- A string whose data splits around `sub.data` contains `sub`. -/
theorem strContains_of_parts (s sub : String) (pre post : List Char)
    (h : s.data = pre ++ sub.data ++ post) : strContains s sub = true := by
  unfold strContains
  rw [h, List.append_assoc]
  exact containsAux_append_left _ _ _ (containsAux_self_append _ _)

/-- Joining is never the empty string. -/
theorem goJoin_ne_empty (a b : String) : goJoin a b ≠ "" := by
  intro h
  have h2 := congrArg (fun s => s.data.length) h
  simp only [goJoin, String.data_append, List.length_append,
    show ("/" : String).data.length = 1 from rfl,
    show ("" : String).data.length = 0 from rfl] at h2
  omega

/-! ## Claim theorems and witnesses -/

/-- Sample environment with both platform variables set. -/
def envS : Env := ⟨"/run/u", "/lad", "/home/u"⟩

/-- Sample clean world used by the witnesses. -/
def wS : World := ⟨envS, ⟨[], [], [], [], [], []⟩, ⟨4242, [], []⟩⟩

/-- The socket path of name `svc` in `envS`. -/
def pathS : String := "/run/u/svc.sock"

/-- The listener `Listen` builds for `svc` on Unix in `wS`. -/
def listenerS : Localnet.Listener :=
  ⟨netCloseUnix pathS, "svc", some (Localnet.removeArtifact pathS)⟩

/-- C1: `Listener.Close` first closes the underlying transport listener and
then unconditionally invokes the cleanup closure — the cleanup runs on the
post-transport-close state even when the transport close failed — and the
returned error is the transport-close error when one occurred, otherwise the
cleanup error (`none` when both succeed). -/
theorem claim1_close_error_policy (l : Localnet.Listener) (w : World)
    (f : World → World × Option GoErr) (hf : l.cleanup = some f) :
    (l.Close w).1 = (f (l.transportClose w).1).1 ∧
    (∀ e, (l.transportClose w).2 = some e → (l.Close w).2 = some e) ∧
    ((l.transportClose w).2 = none → (l.Close w).2 = (f (l.transportClose w).1).2) := by
  unfold Localnet.Listener.Close
  rw [hf]
  dsimp only
  refine ⟨rfl, ?_, ?_⟩
  · intro e he
    rw [he]
  · intro he
    rw [he]

/-- Witness for C1 on the sample Unix listener. -/
theorem claim1_witness :
    listenerS.cleanup = some (Localnet.removeArtifact pathS) ∧
    ((listenerS.Close wS).1
        = (Localnet.removeArtifact pathS (listenerS.transportClose wS).1).1 ∧
     (∀ e, (listenerS.transportClose wS).2 = some e → (listenerS.Close wS).2 = some e) ∧
     ((listenerS.transportClose wS).2 = none →
        (listenerS.Close wS).2
          = (Localnet.removeArtifact pathS (listenerS.transportClose wS).1).2)) :=
  ⟨rfl, claim1_close_error_policy listenerS wS (Localnet.removeArtifact pathS) rfl⟩

/-- C3: for the empty name, `Listen`, `Dial` and `Cleanup` all return the
distinct `ErrInvalidName` synchronously, with the world untouched (no
file-system or network effect), and the guard is the same on every operation
and both platform builds. -/
theorem claim3_empty_name_rejected (w : World) :
    Localnet.Listen Localnet.unixPlatform "" w = (.error .errInvalidName, w) ∧
    Localnet.Dial Localnet.unixPlatform "" w = (.error .errInvalidName, w) ∧
    Localnet.Cleanup Localnet.unixPlatform "" w = (w, some .errInvalidName) ∧
    Localnet.Listen Localnet.windowsPlatform "" w = (.error .errInvalidName, w) ∧
    Localnet.Dial Localnet.windowsPlatform "" w = (.error .errInvalidName, w) ∧
    Localnet.Cleanup Localnet.windowsPlatform "" w = (w, some .errInvalidName) :=
  ⟨rfl, rfl, rfl, rfl, rfl, rfl⟩

/-- C7: endpoint naming is a deterministic function of name and environment:
on Unix the artifact is `<dir>/<name>.sock` with `dir` the runtime directory
when set and `/tmp` otherwise; on Windows the artifact is `<dir>/<name>.port`
under the application-local data directory (with the home-based fallback),
and the Windows address description is that port-file path. -/
theorem claim7_deterministic_naming (env : Env) (name : String) :
    (env.xdgRuntimeDir ≠ "" →
      Localnet.Unix.socketPath env name = env.xdgRuntimeDir ++ "/" ++ name ++ ".sock") ∧
    (env.xdgRuntimeDir = "" →
      Localnet.Unix.socketPath env name = "/tmp/" ++ name ++ ".sock") ∧
    (env.localAppData ≠ "" →
      Localnet.Win.portFilePath env name
        = env.localAppData ++ "/oscompat/localnet/" ++ name ++ ".port") ∧
    (env.localAppData = "" →
      Localnet.Win.portFilePath env name
        = env.userHome ++ "/AppData/Local/oscompat/localnet/" ++ name ++ ".port") ∧
    Localnet.Win.socketPath env name = Localnet.Win.portFilePath env name := by
  refine ⟨?_, ?_, ?_, ?_, rfl⟩
  · intro h
    unfold Localnet.Unix.socketPath Localnet.Unix.socketDir goJoin
    rw [if_pos h]
    simp only [String.append_assoc]
  · intro h
    unfold Localnet.Unix.socketPath Localnet.Unix.socketDir goJoin
    rw [if_neg (by simp [h])]
    simp only [String.append_assoc]
    rfl
  · intro h
    unfold Localnet.Win.portFilePath Localnet.Win.portFileDir goJoin
    rw [if_pos h]
    simp only [String.append_assoc]
    rfl
  · intro h
    unfold Localnet.Win.portFilePath Localnet.Win.portFileDir goJoin
    rw [if_neg (by simp [h])]
    simp only [String.append_assoc]
    rfl

/-- Witness for C7 across both directory fallbacks. -/
theorem claim7_witness :
    Localnet.Unix.socketPath envS "svc" = "/run/u/svc.sock" ∧
    Localnet.Win.portFilePath envS "svc" = "/lad/oscompat/localnet/svc.port" ∧
    Localnet.Unix.socketPath ⟨"", "", "/home/u"⟩ "svc" = "/tmp/svc.sock" ∧
    Localnet.Win.portFilePath ⟨"", "", "/home/u"⟩ "svc"
      = "/home/u/AppData/Local/oscompat/localnet/svc.port" := by
  refine ⟨?_, ?_, ?_, ?_⟩
  · rw [(claim7_deterministic_naming envS "svc").1 (by decide)]
    rfl
  · rw [(claim7_deterministic_naming envS "svc").2.2.1 (by decide)]
    rfl
  · rw [(claim7_deterministic_naming ⟨"", "", "/home/u"⟩ "svc").2.1 rfl]
    rfl
  · rw [(claim7_deterministic_naming ⟨"", "", "/home/u"⟩ "svc").2.2.2.1 rfl]
    rfl

/-- C9: `SocketPath` is pure (a function of the environment only, no world
argument): it returns the empty string on the empty name, and on every
non-empty name a non-empty resolved artifact path containing the name, on
both platform builds. -/
theorem claim9_socketPath_pure (env : Env) (name : String) (h : name ≠ "") :
    Localnet.SocketPath Localnet.unixPlatform env "" = "" ∧
    Localnet.SocketPath Localnet.windowsPlatform env "" = "" ∧
    Localnet.SocketPath Localnet.unixPlatform env name ≠ "" ∧
    Localnet.SocketPath Localnet.windowsPlatform env name ≠ "" ∧
    strContains (Localnet.SocketPath Localnet.unixPlatform env name) name = true ∧
    strContains (Localnet.SocketPath Localnet.windowsPlatform env name) name = true := by
  refine ⟨rfl, rfl, ?_, ?_, ?_, ?_⟩
  · unfold Localnet.SocketPath
    rw [if_neg h]
    exact goJoin_ne_empty _ _
  · unfold Localnet.SocketPath
    rw [if_neg h]
    exact goJoin_ne_empty _ _
  · unfold Localnet.SocketPath
    rw [if_neg h]
    refine strContains_of_parts _ name
      ((Localnet.Unix.socketDir env).data ++ ("/" : String).data)
      (".sock" : String).data ?_
    show (goJoin (Localnet.Unix.socketDir env) (name ++ ".sock")).data = _
    simp [goJoin, String.data_append, List.append_assoc]
  · unfold Localnet.SocketPath
    rw [if_neg h]
    refine strContains_of_parts _ name
      ((Localnet.Win.portFileDir env).data ++ ("/" : String).data)
      (".port" : String).data ?_
    show (goJoin (Localnet.Win.portFileDir env) (name ++ ".port")).data = _
    simp [goJoin, String.data_append, List.append_assoc]

/-- Witness for C9 at the sample environment. -/
theorem claim9_witness :
    Localnet.SocketPath Localnet.unixPlatform envS "" = "" ∧
    Localnet.SocketPath Localnet.unixPlatform envS "svc-B" ≠ "" ∧
    strContains (Localnet.SocketPath Localnet.unixPlatform envS "svc-B") "svc-B" = true :=
  ⟨(claim9_socketPath_pure envS "svc-B" (by decide)).1,
   (claim9_socketPath_pure envS "svc-B" (by decide)).2.2.1,
   (claim9_socketPath_pure envS "svc-B" (by decide)).2.2.2.2.1⟩

/-- C8: for every non-empty name, `Cleanup` deletes the artifact if present,
reports success when the artifact does not exist — so two consecutive calls
both succeed — and propagates a removal error other than not-found; on both
platform builds. -/
theorem claim8_cleanup_idempotent (w : World) (name : String) (h : name ≠ "") :
    (w.fs.lookup (Localnet.Unix.socketPath w.env name) = none →
      Localnet.Cleanup Localnet.unixPlatform name w = (w, none)) ∧
    (∀ e, w.fs.lookup (Localnet.Unix.socketPath w.env name) = some e →
      Localnet.Unix.socketPath w.env name ∉ w.fs.unremovable →
      Localnet.Cleanup Localnet.unixPlatform name w
          = ({ w with fs := w.fs.erase (Localnet.Unix.socketPath w.env name) }, none) ∧
        (Localnet.Cleanup Localnet.unixPlatform name w).1.fs.lookup
          (Localnet.Unix.socketPath w.env name) = none ∧
        (Localnet.Cleanup Localnet.unixPlatform name
          (Localnet.Cleanup Localnet.unixPlatform name w).1).2 = none) ∧
    (∀ e, w.fs.lookup (Localnet.Unix.socketPath w.env name) = some e →
      Localnet.Unix.socketPath w.env name ∈ w.fs.unremovable →
      Localnet.Cleanup Localnet.unixPlatform name w
        = (w, some (.permission "remove" (Localnet.Unix.socketPath w.env name)))) ∧
    (w.fs.lookup (Localnet.Win.portFilePath w.env name) = none →
      Localnet.Cleanup Localnet.windowsPlatform name w = (w, none)) ∧
    (∀ e, w.fs.lookup (Localnet.Win.portFilePath w.env name) = some e →
      Localnet.Win.portFilePath w.env name ∉ w.fs.unremovable →
      Localnet.Cleanup Localnet.windowsPlatform name w
          = ({ w with fs := w.fs.erase (Localnet.Win.portFilePath w.env name) }, none) ∧
        (Localnet.Cleanup Localnet.windowsPlatform name w).1.fs.lookup
          (Localnet.Win.portFilePath w.env name) = none ∧
        (Localnet.Cleanup Localnet.windowsPlatform name
          (Localnet.Cleanup Localnet.windowsPlatform name w).1).2 = none) ∧
    (∀ e, w.fs.lookup (Localnet.Win.portFilePath w.env name) = some e →
      Localnet.Win.portFilePath w.env name ∈ w.fs.unremovable →
      Localnet.Cleanup Localnet.windowsPlatform name w
        = (w, some (.permission "remove" (Localnet.Win.portFilePath w.env name)))) := by
  have hu : Localnet.Cleanup Localnet.unixPlatform name
      = fun v => Localnet.removeArtifact (Localnet.Unix.socketPath v.env name) v := by
    funext v
    unfold Localnet.Cleanup
    rw [if_neg h]
    rfl
  have hw : Localnet.Cleanup Localnet.windowsPlatform name
      = fun v => Localnet.removeArtifact (Localnet.Win.portFilePath v.env name) v := by
    funext v
    unfold Localnet.Cleanup
    rw [if_neg h]
    rfl
  rw [hu, hw]
  dsimp only
  refine ⟨?_, ?_, ?_, ?_, ?_, ?_⟩
  · intro hlk
    exact removeArtifact_absent w _ hlk
  · intro e hlk hrm
    have h1 := removeArtifact_present w _ e hlk hrm
    refine ⟨h1, ?_, ?_⟩
    · rw [h1]
      exact FS.lookup_erase w.fs _
    · rw [h1]
      dsimp only
      rw [removeArtifact_absent _ _ (FS.lookup_erase w.fs _)]
  · intro e hlk hrm
    exact removeArtifact_denied w _ e hlk hrm
  · intro hlk
    exact removeArtifact_absent w _ hlk
  · intro e hlk hrm
    have h1 := removeArtifact_present w _ e hlk hrm
    refine ⟨h1, ?_, ?_⟩
    · rw [h1]
      exact FS.lookup_erase w.fs _
    · rw [h1]
      dsimp only
      rw [removeArtifact_absent _ _ (FS.lookup_erase w.fs _)]
  · intro e hlk hrm
    exact removeArtifact_denied w _ e hlk hrm

/-- Witness for C8: cleanup of an absent artifact succeeds twice in the
sample world. -/
theorem claim8_witness :
    Localnet.Cleanup Localnet.unixPlatform "svc" wS = (wS, none) ∧
    Localnet.Cleanup Localnet.windowsPlatform "svc" wS = (wS, none) :=
  ⟨(claim8_cleanup_idempotent wS "svc" (by decide)).1 rfl,
   (claim8_cleanup_idempotent wS "svc" (by decide)).2.2.2.1 rfl⟩

/-- Closing the canonical Unix listener while it is live: the transport
listener is deregistered and the cleanup closure removes the socket
artifact, with a nil overall error. -/
theorem close_unix_listener (p n : String) (w : World)
    (hmem : p ∈ w.net.unixListening)
    (hlk : w.fs.lookup p = some .socketFile) (hrm : p ∉ w.fs.unremovable) :
    Localnet.Listener.Close ⟨netCloseUnix p, n, some (Localnet.removeArtifact p)⟩ w
      = ({ w with fs := w.fs.erase p,
                  net := { w.net with unixListening := w.net.unixListening.erase p } },
         none) := by
  unfold Localnet.Listener.Close netCloseUnix
  dsimp only
  rw [if_pos hmem]
  rw [removeArtifact_present
        { w with net := { w.net with unixListening := w.net.unixListening.erase p } }
        p .socketFile hlk hrm]

/-- Closing the canonical Unix listener a second time: the transport close
reports the already-closed error, the cleanup finds the artifact already
removed and reports success, and the state is unchanged. -/
theorem close_unix_listener_closed (p n : String) (w : World)
    (hmem : p ∉ w.net.unixListening) (hlk : w.fs.lookup p = none) :
    Localnet.Listener.Close ⟨netCloseUnix p, n, some (Localnet.removeArtifact p)⟩ w
      = (w, some .errNetClosed) := by
  unfold Localnet.Listener.Close netCloseUnix
  dsimp only
  rw [if_neg hmem, removeArtifact_absent w p hlk]

/-- C2: for a Listener returned by `Listen`, `Close` can be called more than
once without corrupting state: the first call removes the artifact and
succeeds, the second call leaves the world unchanged, and the second call's
cleanup against the already-removed artifact reports success (the artifact
removal happens exactly once). -/
theorem claim2_double_close (w : World) (name : String) (hn : name ≠ "")
    (hfree : w.fs.Unrestricted)
    (hlive : Localnet.Unix.socketPath w.env name ∉ w.net.unixListening) :
    ∀ l, (Localnet.Listen Localnet.unixPlatform name w).1 = .ok l →
      (l.Close (Localnet.Listen Localnet.unixPlatform name w).2).2 = none ∧
      (l.Close (Localnet.Listen Localnet.unixPlatform name w).2).1.fs.lookup
        (Localnet.Unix.socketPath w.env name) = none ∧
      (l.Close ((l.Close (Localnet.Listen Localnet.unixPlatform name w).2).1)).1
        = (l.Close (Localnet.Listen Localnet.unixPlatform name w).2).1 ∧
      (∀ g, l.cleanup = some g →
        (g ((l.Close (Localnet.Listen Localnet.unixPlatform name w).2).1)).2 = none) := by
  intro l hok
  have hL : Localnet.Listen Localnet.unixPlatform name w = Localnet.Unix.listen name w := by
    unfold Localnet.Listen
    rw [if_neg hn]
    rfl
  rw [hL] at hok ⊢
  have hfwd := unix_listen_unrestricted name w hfree
  rw [hfwd] at hok ⊢
  dsimp only at hok ⊢
  have hl : l = ⟨netCloseUnix (Localnet.Unix.socketPath w.env name), name,
      some (Localnet.removeArtifact (Localnet.Unix.socketPath w.env name))⟩ :=
    (Except.ok.inj hok).symm
  subst hl
  obtain ⟨hrm, -, -, -, -⟩ := hfree
  have hclose1 := close_unix_listener (Localnet.Unix.socketPath w.env name) name
    { w with
        fs := w.fs.insert (Localnet.Unix.socketPath w.env name) .socketFile,
        net := { w.net with
                  unixListening :=
                    Localnet.Unix.socketPath w.env name :: w.net.unixListening } }
    (List.mem_cons_self _ _) (FS.lookup_insert _ _ _)
    (by rw [show (w.fs.insert (Localnet.Unix.socketPath w.env name)
              FsEntry.socketFile).unremovable = w.fs.unremovable from rfl, hrm]
        exact List.not_mem_nil _)
  rw [hclose1]
  dsimp only
  rw [List.erase_cons_head]
  have hclose2 := close_unix_listener_closed (Localnet.Unix.socketPath w.env name) name
    { w with
        fs := (w.fs.insert (Localnet.Unix.socketPath w.env name) .socketFile).erase
                (Localnet.Unix.socketPath w.env name),
        net := w.net }
    hlive (FS.lookup_erase _ _)
  refine ⟨rfl, FS.lookup_erase _ _, ?_, ?_⟩
  · rw [hclose2]
  · intro g hg
    rw [(Option.some.inj hg).symm]
    rw [removeArtifact_absent _ _ (FS.lookup_erase _ _)]

/-- Witness for C2: double close of the listener for `svc` in the sample
world. -/
theorem claim2_witness :
    (listenerS.Close (Localnet.Listen Localnet.unixPlatform "svc" wS).2).2 = none ∧
    (listenerS.Close (Localnet.Listen Localnet.unixPlatform "svc" wS).2).1.fs.lookup
      (Localnet.Unix.socketPath wS.env "svc") = none ∧
    (listenerS.Close
        ((listenerS.Close (Localnet.Listen Localnet.unixPlatform "svc" wS).2).1)).1
      = (listenerS.Close (Localnet.Listen Localnet.unixPlatform "svc" wS).2).1 ∧
    (∀ g, listenerS.cleanup = some g →
      (g ((listenerS.Close (Localnet.Listen Localnet.unixPlatform "svc" wS).2).1)).2
        = none) :=
  claim2_double_close wS "svc" (by decide) (by decide) (by decide) listenerS rfl

/-- C6: `Listen` on a non-empty name takes over a stale socket artifact —
a pre-existing socket file at the resolved path is removed and the bind
succeeds — and on every successful return the rendezvous artifact has been
published: the socket file on Unix, or the port file holding the bound port
on Windows. -/
theorem claim6_stale_takeover_and_publication (w : World) (name : String)
    (hn : name ≠ "") :
    (w.fs.Unrestricted →
      w.fs.lookup (Localnet.Unix.socketPath w.env name) = some .socketFile →
      (Localnet.Listen Localnet.unixPlatform name w).1 =
        .ok ⟨netCloseUnix (Localnet.Unix.socketPath w.env name), name,
             some (Localnet.removeArtifact (Localnet.Unix.socketPath w.env name))⟩) ∧
    (∀ l, (Localnet.Listen Localnet.unixPlatform name w).1 = .ok l →
      (Localnet.Listen Localnet.unixPlatform name w).2.fs.lookup
        (Localnet.Unix.socketPath w.env name) = some .socketFile) ∧
    (∀ l, (Localnet.Listen Localnet.windowsPlatform name w).1 = .ok l →
      (Localnet.Listen Localnet.windowsPlatform name w).2.fs.lookup
        (Localnet.Win.portFilePath w.env name) = some (.file (itoa w.net.nextPort))) := by
  have hLu : Localnet.Listen Localnet.unixPlatform name w = Localnet.Unix.listen name w := by
    unfold Localnet.Listen
    rw [if_neg hn]
    rfl
  have hLw : Localnet.Listen Localnet.windowsPlatform name w
      = Localnet.Win.listen name w := by
    unfold Localnet.Listen
    rw [if_neg hn]
    rfl
  refine ⟨?_, ?_, ?_⟩
  · intro hfree hstale
    rw [hLu, unix_listen_unrestricted name w hfree]
  · intro l hok
    rw [hLu] at hok ⊢
    exact (unix_listen_ok name w l hok).2.1
  · intro l hok
    rw [hLw] at hok ⊢
    exact (win_listen_ok name w l hok).2.1

/-- World with a stale socket artifact for `svc`, used by the C6 witness. -/
def wStale : World := ⟨envS, ⟨[(pathS, .socketFile)], [], [], [], [], []⟩, ⟨4242, [], []⟩⟩

/-- Witness for C6: `Listen` takes over the stale socket for `svc` and both
platform builds publish their artifact. -/
theorem claim6_witness :
    (Localnet.Listen Localnet.unixPlatform "svc" wStale).1 =
      .ok ⟨netCloseUnix (Localnet.Unix.socketPath wStale.env "svc"), "svc",
           some (Localnet.removeArtifact (Localnet.Unix.socketPath wStale.env "svc"))⟩ ∧
    (Localnet.Listen Localnet.unixPlatform "svc" wStale).2.fs.lookup
      (Localnet.Unix.socketPath wStale.env "svc") = some .socketFile ∧
    (Localnet.Listen Localnet.windowsPlatform "svc" wStale).2.fs.lookup
      (Localnet.Win.portFilePath wStale.env "svc") = some (.file (itoa wStale.net.nextPort)) :=
  ⟨(claim6_stale_takeover_and_publication wStale "svc" (by decide)).1 (by decide) (by decide),
   (claim6_stale_takeover_and_publication wStale "svc" (by decide)).2.1 _
     ((claim6_stale_takeover_and_publication wStale "svc" (by decide)).1
       (by decide) (by decide)),
   (claim6_stale_takeover_and_publication wStale "svc" (by decide)).2.2
     ⟨netCloseTcp 4242, "svc",
      some (Localnet.removeArtifact (Localnet.Win.portFilePath wStale.env "svc"))⟩ rfl⟩

/-- First component of a successful `listenPublish`. -/
theorem Win.listenPublish_fst (name pf : String) (w : World)
    (h1 : 1 ≤ w.net.nextPort) (h2 : w.net.nextPort ≤ 65535)
    (h3 : w.net.nextPort ∉ w.net.tcpListening) (hw : pf ∉ w.fs.unwritable) :
    (Localnet.Win.listenPublish name pf w).1 =
      .ok ⟨netCloseTcp w.net.nextPort, name, some (Localnet.removeArtifact pf)⟩ := by
  rw [Win.listenPublish_of_ok name pf w h1 h2 h3 hw]

/-- On an unrestricted file system with a valid free ephemeral port,
the Windows `listen` succeeds with the canonical listener record. -/
theorem win_listen_unrestricted (name : String) (w : World)
    (hfree : w.fs.Unrestricted) (h1 : 1 ≤ w.net.nextPort)
    (h2 : w.net.nextPort ≤ 65535) (h3 : w.net.nextPort ∉ w.net.tcpListening) :
    (Localnet.Win.listen name w).1 =
      .ok ⟨netCloseTcp w.net.nextPort, name,
           some (Localnet.removeArtifact (Localnet.Win.portFilePath w.env name))⟩ := by
  obtain ⟨-, -, hwr, hmk, -⟩ := hfree
  have hw2 : Localnet.Win.portFilePath w.env name ∉
      (osRemove (w.fs.insert (goDir (Localnet.Win.portFilePath w.env name)) FsEntry.dir)
        (Localnet.Win.portFilePath w.env name)).1.unwritable := by
    rw [FS.unwritable_osRemove,
        show (w.fs.insert (goDir (Localnet.Win.portFilePath w.env name))
            FsEntry.dir).unwritable = w.fs.unwritable from rfl, hwr]
    exact List.not_mem_nil _
  unfold Localnet.Win.listen osMkdirAll
  dsimp only
  rw [if_neg (by rw [hmk]; exact List.not_mem_nil _)]
  dsimp only
  exact Win.listenPublish_fst name _ _ h1 h2 h3 hw2

/-- When the port file holds the rendered port of a live loopback listener,
the Windows `dial` connects to exactly that port. -/
theorem Win.dial_connects (w : World) (name : String) (port : Nat)
    (hfile : w.fs.lookup (Localnet.Win.portFilePath w.env name)
      = some (.file (itoa port)))
    (hread : Localnet.Win.portFilePath w.env name ∉ w.fs.unreadable)
    (h1 : 1 ≤ port) (h2 : port ≤ 65535) (hlive : port ∈ w.net.tcpListening) :
    Localnet.Win.dial name w = (.ok (.tcp port), w) := by
  unfold Localnet.Win.dial osReadFile netDialTcpLoopback
  dsimp only
  rw [hfile]
  dsimp only
  rw [if_neg hread]
  dsimp only
  rw [goTrimSpace_itoa, goParsePort_itoa port h1 h2]
  dsimp only
  rw [if_pos hlive]

/-- C4: on the TCP-fallback transport, for every valid port the OS assigns,
the port `Listen` writes into the artifact file is exactly the port a
subsequent `Dial` with the same name connects to on loopback. -/
theorem claim4_port_roundtrip (w : World) (name : String) (hn : name ≠ "")
    (hfree : w.fs.Unrestricted) (h1 : 1 ≤ w.net.nextPort)
    (h2 : w.net.nextPort ≤ 65535) (h3 : w.net.nextPort ∉ w.net.tcpListening) :
    ∃ l, (Localnet.Listen Localnet.windowsPlatform name w).1 = .ok l ∧
      (Localnet.Listen Localnet.windowsPlatform name w).2.fs.lookup
        (Localnet.Win.portFilePath w.env name) = some (.file (itoa w.net.nextPort)) ∧
      (Localnet.Dial Localnet.windowsPlatform name
        (Localnet.Listen Localnet.windowsPlatform name w).2).1
        = .ok (.tcp w.net.nextPort) := by
  have hL : Localnet.Listen Localnet.windowsPlatform name w
      = Localnet.Win.listen name w := by
    unfold Localnet.Listen
    rw [if_neg hn]
    rfl
  rw [hL]
  have hok := win_listen_unrestricted name w hfree h1 h2 h3
  have hinv := win_listen_ok name w _ hok
  have hfree2 : (Localnet.Win.listen name w).2.fs.Unrestricted :=
    FS.unrestricted_of_flags _ _ hinv.2.2.2.1 hfree
  have henv : (Localnet.Win.listen name w).2.env = w.env := hinv.2.2.1
  have hD : Localnet.Dial Localnet.windowsPlatform name (Localnet.Win.listen name w).2
      = Localnet.Win.dial name (Localnet.Win.listen name w).2 := by
    unfold Localnet.Dial
    rw [if_neg hn]
    rfl
  refine ⟨_, hok, hinv.2.1, ?_⟩
  rw [hD]
  rw [Win.dial_connects (Localnet.Win.listen name w).2 name w.net.nextPort
        (by rw [henv]; exact hinv.2.1)
        (by rw [henv, hfree2.2.1]; exact List.not_mem_nil _)
        h1 h2 hinv.2.2.2.2.1]

/-- Witness for C4 in the sample world, whose next ephemeral port is
4242. -/
theorem claim4_witness :
    ∃ l, (Localnet.Listen Localnet.windowsPlatform "svc" wS).1 = .ok l ∧
      (Localnet.Listen Localnet.windowsPlatform "svc" wS).2.fs.lookup
        (Localnet.Win.portFilePath wS.env "svc") = some (.file (itoa wS.net.nextPort)) ∧
      (Localnet.Dial Localnet.windowsPlatform "svc"
        (Localnet.Listen Localnet.windowsPlatform "svc" wS).2).1
        = .ok (.tcp wS.net.nextPort) :=
  claim4_port_roundtrip wS "svc" (by decide) (by decide) (by decide) (by decide)
    (by decide)

/-- C5: on the TCP-fallback transport, `Dial` reads the port file, trims and
parses the decimal contents, and connects to loopback on that port; a
missing or unreadable artifact yields a connection error wrapping the
underlying I/O failure under the package-scoped read message, and malformed
contents propagate the parse failure (wrapped under the connect message by
the network layer call). -/
theorem claim5_dial_failure_modes (w : World) (name : String) (hn : name ≠ "") :
    (w.fs.lookup (Localnet.Win.portFilePath w.env name) = none →
      (Localnet.Dial Localnet.windowsPlatform name w).1
        = .error (.wrap "oscompat/localnet: failed to read port file"
            (.notExist (Localnet.Win.portFilePath w.env name)))) ∧
    (∀ c, w.fs.lookup (Localnet.Win.portFilePath w.env name) = some (.file c) →
      Localnet.Win.portFilePath w.env name ∈ w.fs.unreadable →
      (Localnet.Dial Localnet.windowsPlatform name w).1
        = .error (.wrap "oscompat/localnet: failed to read port file"
            (.permission "read" (Localnet.Win.portFilePath w.env name)))) ∧
    (∀ c, w.fs.lookup (Localnet.Win.portFilePath w.env name) = some (.file c) →
      Localnet.Win.portFilePath w.env name ∉ w.fs.unreadable →
      goParsePort (goTrimSpace c) = none →
      (Localnet.Dial Localnet.windowsPlatform name w).1
        = .error (.wrap "oscompat/localnet: failed to connect"
            (.unknownPort (goTrimSpace c)))) ∧
    (∀ c port, w.fs.lookup (Localnet.Win.portFilePath w.env name) = some (.file c) →
      Localnet.Win.portFilePath w.env name ∉ w.fs.unreadable →
      goParsePort (goTrimSpace c) = some port → port ∈ w.net.tcpListening →
      (Localnet.Dial Localnet.windowsPlatform name w).1 = .ok (.tcp port)) := by
  have hD : Localnet.Dial Localnet.windowsPlatform name w
      = Localnet.Win.dial name w := by
    unfold Localnet.Dial
    rw [if_neg hn]
    rfl
  rw [hD]
  unfold Localnet.Win.dial osReadFile netDialTcpLoopback
  dsimp only
  refine ⟨?_, ?_, ?_, ?_⟩
  · intro hlk
    rw [hlk]
  · intro c hlk hrd
    rw [hlk]
    dsimp only
    rw [if_pos hrd]
  · intro c hlk hrd hparse
    rw [hlk]
    dsimp only
    rw [if_neg hrd]
    dsimp only
    rw [hparse]
  · intro c port hlk hrd hparse hlive
    rw [hlk]
    dsimp only
    rw [if_neg hrd]
    dsimp only
    rw [hparse]
    dsimp only
    rw [if_pos hlive]

/-- World with a malformed port file for `svc`, used by the C5 witness. -/
def wBadPort : World :=
  ⟨envS, ⟨[("/lad/oscompat/localnet/svc.port", .file "not-a-port")], [], [], [], [], []⟩,
   ⟨4242, [], []⟩⟩

/-- Witness for C5: a missing artifact in the sample world and a malformed
artifact both fail as stated. -/
theorem claim5_witness :
    (Localnet.Dial Localnet.windowsPlatform "svc" wS).1
      = .error (.wrap "oscompat/localnet: failed to read port file"
          (.notExist (Localnet.Win.portFilePath wS.env "svc"))) ∧
    (Localnet.Dial Localnet.windowsPlatform "svc" wBadPort).1
      = .error (.wrap "oscompat/localnet: failed to connect"
          (.unknownPort (goTrimSpace "not-a-port"))) :=
  ⟨(claim5_dial_failure_modes wS "svc" (by decide)).1 rfl,
   (claim5_dial_failure_modes wBadPort "svc" (by decide)).2.2.1 "not-a-port" rfl
     (List.not_mem_nil _) rfl⟩

/-- Wrapping preserves whether `ErrSocketExists` occurs inside. -/
@[simp] theorem usesSE_wrap (m : String) (e : GoErr) :
    (GoErr.wrap m e).usesSocketExists = e.usesSocketExists := rfl

/-- A not-exist error is not `ErrSocketExists`. -/
@[simp] theorem usesSE_notExist (p : String) :
    (GoErr.notExist p).usesSocketExists = false := rfl

/-- A permission error is not `ErrSocketExists`. -/
@[simp] theorem usesSE_permission (op p : String) :
    (GoErr.permission op p).usesSocketExists = false := rfl

/-- An address-in-use error is not `ErrSocketExists`. -/
@[simp] theorem usesSE_addrInUse (p : String) :
    (GoErr.addrInUse p).usesSocketExists = false := rfl

/-- A TCP bind failure is not `ErrSocketExists`. -/
@[simp] theorem usesSE_listenFail : GoErr.listenFail.usesSocketExists = false := rfl

/-- The already-closed error is not `ErrSocketExists`. -/
@[simp] theorem usesSE_errNetClosed : GoErr.errNetClosed.usesSocketExists = false := rfl

/-- The invalid-name error is not `ErrSocketExists`. -/
@[simp] theorem usesSE_errInvalidName :
    GoErr.errInvalidName.usesSocketExists = false := rfl

/-- A refused Unix connection is not `ErrSocketExists`. -/
@[simp] theorem usesSE_connRefused (p : String) :
    (GoErr.connRefused p).usesSocketExists = false := rfl

/-- A refused TCP connection is not `ErrSocketExists`. -/
@[simp] theorem usesSE_connRefusedTcp (p : Nat) :
    (GoErr.connRefusedTcp p).usesSocketExists = false := rfl

/-- A port parse failure is not `ErrSocketExists`. -/
@[simp] theorem usesSE_unknownPort (s : String) :
    (GoErr.unknownPort s).usesSocketExists = false := rfl

/-- Unfolding of the optional-error check on `none`. -/
@[simp] theorem optUsesSE_none : optUsesSocketExists none = false := rfl

/-- Unfolding of the optional-error check on `some`. -/
@[simp] theorem optUsesSE_some (e : GoErr) :
    optUsesSocketExists (some e) = e.usesSocketExists := rfl

/-- Error component of an error result. -/
@[simp] theorem exceptErr_error {α : Type} (e : GoErr) :
    exceptErr (α := α) (.error e) = some e := rfl

/-- Error component of a success result. -/
@[simp] theorem exceptErr_ok {α : Type} (a : α) : exceptErr (.ok a) = none := rfl

/-- The removal closure never produces `ErrSocketExists`. -/
theorem removeArtifact_not_se (p : String) (w : World) :
    optUsesSocketExists (Localnet.removeArtifact p w).2 = false := by
  unfold Localnet.removeArtifact osRemove
  dsimp only
  cases hlk : w.fs.lookup p with
  | none => simp [GoErr.isNotExist]
  | some e =>
      by_cases hrm : p ∈ w.fs.unremovable
      · rw [if_pos hrm]
        simp [GoErr.isNotExist]
      · rw [if_neg hrm]
        simp

/-- Closing the transport of a Unix listener yields nil or the
already-closed error. -/
theorem netCloseUnix_err (p : String) (w : World) :
    (netCloseUnix p w).2 = none ∨ (netCloseUnix p w).2 = some .errNetClosed := by
  unfold netCloseUnix
  split
  · exact Or.inl rfl
  · exact Or.inr rfl

/-- Closing the transport of a TCP listener yields nil or the already-closed
error. -/
theorem netCloseTcp_err (p : Nat) (w : World) :
    (netCloseTcp p w).2 = none ∨ (netCloseTcp p w).2 = some .errNetClosed := by
  unfold netCloseTcp
  split
  · exact Or.inl rfl
  · exact Or.inr rfl

/-- Closing the canonical Unix listener never produces `ErrSocketExists`. -/
theorem close_unix_not_se (p n : String) (w : World) :
    optUsesSocketExists
      (Localnet.Listener.Close
        ⟨netCloseUnix p, n, some (Localnet.removeArtifact p)⟩ w).2 = false := by
  unfold Localnet.Listener.Close
  dsimp only
  rcases netCloseUnix_err p w with hc | hc <;> rw [hc]
  · exact removeArtifact_not_se p _
  · simp

/-- Closing the canonical Windows listener never produces
`ErrSocketExists`. -/
theorem close_tcp_not_se (p : Nat) (n path : String) (w : World) :
    optUsesSocketExists
      (Localnet.Listener.Close
        ⟨netCloseTcp p, n, some (Localnet.removeArtifact path)⟩ w).2 = false := by
  unfold Localnet.Listener.Close
  dsimp only
  rcases netCloseTcp_err p w with hc | hc <;> rw [hc]
  · exact removeArtifact_not_se _ _
  · simp

/-- The Unix `listenBind` never produces `ErrSocketExists`. -/
theorem unix_listenBind_not_se (name path : String) (w : World) :
    optUsesSocketExists (exceptErr (Localnet.Unix.listenBind name path w).1) = false := by
  unfold Localnet.Unix.listenBind netListenUnix osChmod
  dsimp only
  cases hlk : w.fs.lookup path with
  | some e => simp
  | none =>
      dsimp only
      rw [FS.lookup_insert]
      dsimp only
      rw [FS.chmodDenied_insert]
      by_cases hch : path ∈ w.fs.chmodDenied
      · rw [if_pos hch]
        simp
      · rw [if_neg hch]
        simp

/-- The Unix `listen` never produces `ErrSocketExists`. -/
theorem unix_listen_not_se (name : String) (w : World) :
    optUsesSocketExists (exceptErr (Localnet.Unix.listen name w).1) = false := by
  unfold Localnet.Unix.listen osRemove
  dsimp only
  cases hlk : w.fs.lookup (Localnet.Unix.socketPath w.env name) with
  | none =>
      dsimp only [GoErr.isNotExist]
      rw [if_pos rfl]
      exact unix_listenBind_not_se name _ _
  | some e =>
      by_cases hrm : Localnet.Unix.socketPath w.env name ∈ w.fs.unremovable
      · rw [if_pos hrm]
        simp [GoErr.isNotExist]
      · rw [if_neg hrm]
        dsimp only
        exact unix_listenBind_not_se name _ _

/-- The Windows `listenPublish` never produces `ErrSocketExists`. -/
theorem win_listenPublish_not_se (name pf : String) (w : World) :
    optUsesSocketExists (exceptErr (Localnet.Win.listenPublish name pf w).1) = false := by
  unfold Localnet.Win.listenPublish netListenTcpEphemeral osWriteFile
  dsimp only
  by_cases hv : 1 ≤ w.net.nextPort ∧ w.net.nextPort ≤ 65535 ∧
      w.net.nextPort ∉ w.net.tcpListening
  · rw [if_pos hv]
    dsimp only
    by_cases hw : pf ∈ w.fs.unwritable
    · rw [if_pos hw]
      simp
    · rw [if_neg hw]
      simp
  · rw [if_neg hv]
    simp

/-- The Windows `listen` never produces `ErrSocketExists`. -/
theorem win_listen_not_se (name : String) (w : World) :
    optUsesSocketExists (exceptErr (Localnet.Win.listen name w).1) = false := by
  unfold Localnet.Win.listen osMkdirAll
  dsimp only
  by_cases hmk : goDir (Localnet.Win.portFilePath w.env name) ∈ w.fs.mkdirDenied
  · rw [if_pos hmk]
    simp
  · rw [if_neg hmk]
    dsimp only
    exact win_listenPublish_not_se name _ _

/-- The Unix `dial` never produces `ErrSocketExists`. -/
theorem unix_dial_not_se (name : String) (w : World) :
    optUsesSocketExists (exceptErr (Localnet.Unix.dial name w).1) = false := by
  unfold Localnet.Unix.dial netDialUnix
  dsimp only
  cases hlk : w.fs.lookup (Localnet.Unix.socketPath w.env name) with
  | none => simp
  | some e =>
      by_cases hls : Localnet.Unix.socketPath w.env name ∈ w.net.unixListening
      · rw [if_pos hls]
        simp
      · rw [if_neg hls]
        simp

/-- The Windows `dial` never produces `ErrSocketExists`. -/
theorem win_dial_not_se (name : String) (w : World) :
    optUsesSocketExists (exceptErr (Localnet.Win.dial name w).1) = false := by
  unfold Localnet.Win.dial osReadFile netDialTcpLoopback
  dsimp only
  cases hlk : w.fs.lookup (Localnet.Win.portFilePath w.env name) with
  | none => simp
  | some e =>
      cases e with
      | file c =>
          dsimp only
          by_cases hrd : Localnet.Win.portFilePath w.env name ∈ w.fs.unreadable
          · rw [if_pos hrd]
            simp
          · rw [if_neg hrd]
            dsimp only
            cases hp : goParsePort (goTrimSpace c) with
            | none => simp
            | some port =>
                dsimp only
                by_cases hls : port ∈ w.net.tcpListening
                · rw [if_pos hls]
                  simp
                · rw [if_neg hls]
                  simp
      | socketFile => simp
      | dir => simp

/-- C10: the exported `ErrSocketExists` is never returned by any operation
of the package on either platform build: for every input, `Listen`, `Dial`,
`Cleanup`, and `Close` of a listener returned by `Listen` never produce it
(directly or wrapped), because `Listen` removes any pre-existing socket
instead of failing on its existence. -/
theorem claim10_errSocketExists_never_returned (p : Localnet.PlatformOps)
    (hp : p = Localnet.unixPlatform ∨ p = Localnet.windowsPlatform)
    (name : String) (w wc : World) :
    optUsesSocketExists (exceptErr (Localnet.Listen p name w).1) = false ∧
    optUsesSocketExists (exceptErr (Localnet.Dial p name w).1) = false ∧
    optUsesSocketExists (Localnet.Cleanup p name w).2 = false ∧
    (∀ l, (Localnet.Listen p name w).1 = .ok l →
      optUsesSocketExists (l.Close wc).2 = false) := by
  by_cases hn : name = ""
  · subst hn
    rcases hp with rfl | rfl <;>
      exact ⟨rfl, rfl, rfl, fun l hok => by simp [Localnet.Listen] at hok⟩
  · rcases hp with rfl | rfl
    · have hL : Localnet.Listen Localnet.unixPlatform name w
          = Localnet.Unix.listen name w := by
        unfold Localnet.Listen
        rw [if_neg hn]
        rfl
      have hD : Localnet.Dial Localnet.unixPlatform name w
          = Localnet.Unix.dial name w := by
        unfold Localnet.Dial
        rw [if_neg hn]
        rfl
      have hC : Localnet.Cleanup Localnet.unixPlatform name w
          = Localnet.removeArtifact (Localnet.Unix.socketPath w.env name) w := by
        unfold Localnet.Cleanup
        rw [if_neg hn]
        rfl
      refine ⟨?_, ?_, ?_, ?_⟩
      · rw [hL]
        exact unix_listen_not_se name w
      · rw [hD]
        exact unix_dial_not_se name w
      · rw [hC]
        exact removeArtifact_not_se _ _
      · intro l hok
        rw [hL] at hok
        rw [(unix_listen_ok name w l hok).1]
        exact close_unix_not_se _ _ wc
    · have hL : Localnet.Listen Localnet.windowsPlatform name w
          = Localnet.Win.listen name w := by
        unfold Localnet.Listen
        rw [if_neg hn]
        rfl
      have hD : Localnet.Dial Localnet.windowsPlatform name w
          = Localnet.Win.dial name w := by
        unfold Localnet.Dial
        rw [if_neg hn]
        rfl
      have hC : Localnet.Cleanup Localnet.windowsPlatform name w
          = Localnet.removeArtifact (Localnet.Win.portFilePath w.env name) w := by
        unfold Localnet.Cleanup
        rw [if_neg hn]
        rfl
      refine ⟨?_, ?_, ?_, ?_⟩
      · rw [hL]
        exact win_listen_not_se name w
      · rw [hD]
        exact win_dial_not_se name w
      · rw [hC]
        exact removeArtifact_not_se _ _
      · intro l hok
        rw [hL] at hok
        rw [(win_listen_ok name w l hok).1]
        exact close_tcp_not_se _ _ _ wc

/-- Witness for C10 on the Unix build in the sample world, including the
close of the listener `Listen` returns there. -/
theorem claim10_witness :
    optUsesSocketExists (exceptErr (Localnet.Listen Localnet.unixPlatform "svc" wS).1)
      = false ∧
    optUsesSocketExists (exceptErr (Localnet.Dial Localnet.unixPlatform "svc" wS).1)
      = false ∧
    optUsesSocketExists (Localnet.Cleanup Localnet.unixPlatform "svc" wS).2 = false ∧
    optUsesSocketExists (listenerS.Close wS).2 = false :=
  have h := claim10_errSocketExists_never_returned Localnet.unixPlatform (Or.inl rfl)
    "svc" wS wS
  ⟨h.1, h.2.1, h.2.2.1, h.2.2.2 listenerS rfl⟩

end Oscompat
